import Mathlib

set_option maxRecDepth 8000

/-! Shallow embedding of the input-validation core of the secure CRUD app:
the security utility module (validateInput, sanitizeHtml, isValidContent,
RateLimiter, generateSecureId, validateLength, validateForContext) and the
application layer that orchestrates it (validateAndSanitizeInput, addItem,
deleteItem, saveEdit).  JavaScript strings are modelled as lists of
characters; regular-expression tests are modelled by equivalent executable
scanners. -/

/-- JavaScript strings are modelled as lists of characters. -/
abbrev Str := List Char

/-- The apostrophe character (U+0027). -/
def apos : Char := Char.ofNat 39

/-- JavaScript whitespace: the characters removed by String.prototype.trim
and matched by the regex whitespace class, namely ECMA-262 WhiteSpace
(tab, VT, FF, space, NBSP, BOM and the Unicode Zs category: ogham space
mark U+1680, the en-quad through hair-space run U+2000 to U+200A, narrow
no-break space U+202F, medium mathematical space U+205F, ideographic
space U+3000) together with the LineTerminator characters LF, CR, LS,
PS. -/
def isJsSpace (c : Char) : Bool :=
  c == ' ' || c == '\t' || c == '\n' || c == '\r' || c == Char.ofNat 11 ||
  c == Char.ofNat 12 || c == Char.ofNat 160 || c == Char.ofNat 0xFEFF ||
  c == Char.ofNat 0x1680 ||
  decide (Char.ofNat 0x2000 ≤ c ∧ c ≤ Char.ofNat 0x200A) ||
  c == Char.ofNat 0x202F || c == Char.ofNat 0x205F ||
  c == Char.ofNat 0x3000 ||
  c == Char.ofNat 0x2028 || c == Char.ofNat 0x2029

/-- String.prototype.trim: whitespace removed from both ends. -/
def jsTrim (s : Str) : Str :=
  ((s.dropWhile isJsSpace).reverse.dropWhile isJsSpace).reverse

/-- ASCII lower-casing of a string, the canonical form used to model the
case-insensitive regex flag on ASCII pattern characters. -/
def lcs (s : Str) : Str := s.map Char.toLower

/-- The regex word-character class: [A-Za-z0-9_]. -/
def isWordChar (c : Char) : Bool :=
  decide (('a' ≤ c ∧ c ≤ 'z') ∨ ('A' ≤ c ∧ c ≤ 'Z') ∨
          ('0' ≤ c ∧ c ≤ '9') ∨ c = '_')

/-- A literal occurring as a contiguous substring of a string (the test
performed by a plain-literal regex). -/
def hasSub (pat : Str) (l : Str) : Bool := l.tails.any (fun t => pat.isPrefixOf t)

/-- One match attempt of the inline-event-handler pattern (the letters on,
one or more word characters, optional whitespace, then an equals sign) at
the head of a lower-cased suffix.  The word run is taken maximally, which
is equivalent to the backtracking semantics because neither an equals sign
nor whitespace is a word character. -/
def evHandlerAt : Str → Bool
  | 'o' :: 'n' :: rest =>
      !(rest.takeWhile isWordChar).isEmpty &&
      ((rest.dropWhile isWordChar).dropWhile isJsSpace).head? == some '='
  | _ => false

/-- The inline-event-handler regex tested anywhere in a lower-cased string. -/
def hasEventHandler (l : Str) : Bool := l.tails.any evHandlerAt

/-- One match attempt of a literal followed by optional whitespace and an
opening parenthesis (the CSS expression and url patterns). -/
def litParenAt (lit : Str) (t : Str) : Bool :=
  lit.isPrefixOf t &&
  (((t.drop lit.length).dropWhile isJsSpace).head? == some '(')

/-- A literal followed by optional whitespace and an opening parenthesis,
tested anywhere in a lower-cased string. -/
def hasLitParen (lit : Str) (l : Str) : Bool := l.tails.any (litParenAt lit)

/-- One match attempt of the script-element regex at the head of a
lower-cased suffix: the literal open tag, a word boundary, then any
content up to a literal closing tag.  The regex matches exactly when an
open tag with a word boundary is eventually followed by a closing tag, so
the middle is modelled as an infix search for the closing tag. -/
def scriptElAt (t : Str) : Bool :=
  ("<script".toList).isPrefixOf t &&
  (match (t.drop 7).head? with
   | none => true
   | some c => !isWordChar c) &&
  hasSub ("</script>".toList) (t.drop 7)

/-- The full script-element regex tested anywhere in a lower-cased string. -/
def hasScriptEl (l : Str) : Bool := l.tails.any scriptElAt

/-- The malicious-pattern list of validateInput, evaluated on the raw input
(the patterns are case-insensitive, so the input is lower-cased once). -/
def maliciousMatch (input : Str) : Bool :=
  hasScriptEl (lcs input) ||
  hasSub ("javascript:".toList) (lcs input) ||
  hasEventHandler (lcs input) ||
  hasSub ("data:text/html".toList) (lcs input) ||
  hasSub ("vbscript:".toList) (lcs input) ||
  hasSub ("<iframe".toList) (lcs input) ||
  hasSub ("<object".toList) (lcs input) ||
  hasSub ("<embed".toList) (lcs input) ||
  hasSub ("<link".toList) (lcs input) ||
  hasSub ("<meta".toList) (lcs input) ||
  hasSub ("<style".toList) (lcs input) ||
  hasLitParen ("expression".toList) (lcs input) ||
  hasLitParen ("url".toList) (lcs input) ||
  hasSub ("@import".toList) (lcs input)

/-- validateInput from the security module: reject empty-after-trim input,
reject input longer than 1000 characters, then reject on any malicious
pattern. -/
def validateInput (input : Str) : Bool :=
  if (jsTrim input).isEmpty then false
  else if 1000 < input.length then false
  else !maliciousMatch input

/-- Replace every occurrence of a character by a replacement string (a
global single-character regex replace). -/
def replChar (x : Char) (r : Str) (s : Str) : Str :=
  (s.map (fun c => if c = x then r else [c])).flatten

/-- sanitizeHtml from the security module: the six HTML-significant
characters are replaced by entities, ampersand first. -/
def sanitizeHtml (s : Str) : Str :=
  replChar '/' ("&#x2F;".toList)
    (replChar apos ("&#x27;".toList)
      (replChar '"' ("&quot;".toList)
        (replChar '>' ("&gt;".toList)
          (replChar '<' ("&lt;".toList)
            (replChar '&' ("&amp;".toList) s)))))

/-- The per-character escaping performed by sanitizeHtml, used to state that
the six sequential replacements act as a single left-to-right pass. -/
def escChar (c : Char) : Str :=
  if c = '&' then ("&amp;".toList)
  else if c = '<' then ("&lt;".toList)
  else if c = '>' then ("&gt;".toList)
  else if c = '"' then ("&quot;".toList)
  else if c = apos then ("&#x27;".toList)
  else if c = '/' then ("&#x2F;".toList)
  else [c]

/-- Scan for a word-bounded occurrence of a lower-case keyword consisting of
word characters; the boolean argument records whether the position under
scrutiny sits at a word boundary (the previous character, if any, was not a
word character). -/
def hasKwAux (kw : Str) : Bool → Str → Bool
  | _, [] => false
  | prevOk, c :: rest =>
      (prevOk && kw.isPrefixOf (c :: rest) &&
        (match ((c :: rest).drop kw.length).head? with
         | none => true
         | some d => !isWordChar d)) ||
      hasKwAux kw (!isWordChar c) rest

/-- A word-bounded occurrence of a keyword anywhere in a lower-cased string. -/
def hasKw (kw : Str) (l : Str) : Bool := hasKwAux kw true l

/-- The SQL keyword alternatives of the first SQL-injection pattern. -/
def sqlKeywords : List Str :=
  [("select".toList), ("insert".toList), ("update".toList),
   ("delete".toList), ("drop".toList), ("create".toList),
   ("alter".toList), ("exec".toList), ("union".toList),
   ("script".toList)]

/-- The second SQL-injection pattern: comment markers and the punctuation
alternatives. -/
def hasSqlPunct (t : Str) : Bool :=
  hasSub ("--".toList) t || hasSub ("/*".toList) t ||
  hasSub ("*/".toList) t ||
  t.any (fun c => c == ';' || c == apos || c == '"' || c == '|' ||
                  c == '&' || c == '+')

/-- Both SQL-injection patterns of isValidContent. -/
def hasSqlPattern (t : Str) : Bool :=
  sqlKeywords.any (fun kw => hasKw kw t) || hasSqlPunct t

/-- The XSS pattern list of isValidContent (all plain case-insensitive
substrings). -/
def hasXssPattern (t : Str) : Bool :=
  hasSub ("javascript:".toList) t || hasSub ("vbscript:".toList) t ||
  hasSub ("onload".toList) t || hasSub ("onerror".toList) t ||
  hasSub ("onclick".toList) t || hasSub ("onmouseover".toList) t ||
  hasSub ("<script".toList) t || hasSub ("</script>".toList) t ||
  hasSub ("eval(".toList) t || hasSub ("alert(".toList) t ||
  hasSub ("confirm(".toList) t || hasSub ("prompt(".toList) t

/-- isValidContent from the security module: the SQL and XSS pattern scans
applied to the trimmed input. -/
def isValidContent (content : Str) : Bool :=
  !hasSqlPattern (lcs (jsTrim content)) && !hasXssPattern (lcs (jsTrim content))

/-- validateLength from the security module. -/
def validateLength (input : Str) (maxLength : Nat) : Bool :=
  decide (input.length ≤ maxLength)

/-- The text branch of validateForContext: the conjunction of validateInput
and isValidContent, exactly as in the source.  Only this branch is invoked
by the validation pipeline; the url branch depends on the host URL parser
and is never reached by the embedded fragment. -/
def validateForContextText (input : Str) : Bool :=
  validateInput input && isValidContent input

/-- The state of the RateLimiter: the attempts map from keys to recorded
timestamps (milliseconds). -/
abbrev RLState := String → List Int

/-- A RateLimiter whose attempts map is empty. -/
def freshRL : RLState := fun _ => []

/-- RateLimiter.isAllowed: prune the stored attempts for the key to those
inside the trailing window, refuse without recording when the pruned count
has reached maxAttempts, otherwise record the current time.  The returned
state is the updated attempts map (unchanged on refusal, exactly as the
source returns before writing). -/
def isAllowed (maxAttempts : Nat) (windowMs : Int) (st : RLState)
    (now : Int) (key : String) : Bool × RLState :=
  if maxAttempts ≤ ((st key).filter (fun t => decide (now - t < windowMs))).length
  then (false, st)
  else (true,
        fun k => if k = key
                 then ((st key).filter (fun t => decide (now - t < windowMs))) ++ [now]
                 else st k)

/-- A sequence of isAllowed calls with the default construction parameters
(maxAttempts 10, windowMs 60000) at the given times, returning the list of
results and the final state. -/
def callSeq (key : String) : RLState → List Int → List Bool × RLState
  | st, [] => ([], st)
  | st, t :: ts =>
      ((isAllowed 10 60000 st t key).1 ::
        (callSeq key (isAllowed 10 60000 st t key).2 ts).1,
       (callSeq key (isAllowed 10 60000 st t key).2 ts).2)

/-- The decimal digit character for a value below ten. -/
def decDigit (n : Nat) : Char := Char.ofNat (48 + n)

/-- Decimal digit characters of a natural number, most significant first
(fuel-driven; the fuel argument strictly exceeds the number). -/
def natToDecAux : Nat → Nat → Str
  | 0, _ => []
  | fuel + 1, n =>
      if n < 10 then [decDigit n]
      else natToDecAux fuel (n / 10) ++ [decDigit (n % 10)]

/-- Template-literal rendering of the millisecond timestamp. -/
def natToDec (n : Nat) : Str := natToDecAux (n + 1) n

/-- The base-36 digit character for a value below 36 (decimal digits then
lower-case letters, as produced by Number.prototype.toString with radix
36). -/
def digitChar36 (d : Nat) : Char :=
  if d < 10 then Char.ofNat (48 + d) else Char.ofNat (87 + d)

/-- The first 13 base-36 fractional digits of the fraction k divided by two
to the 53rd (the granularity of Math.random), most significant first. -/
def randFrac36 (k : Nat) : Str :=
  (List.range 13).map (fun i => digitChar36 (k * 36 ^ (i + 1) / 2 ^ 53 % 36))

/-- Trailing zero digits removed, as Number.prototype.toString stops once
the value is exhausted. -/
def stripZeros (s : Str) : Str :=
  (s.reverse.dropWhile (fun c => c == '0')).reverse

/-- One random segment of generateSecureId: the characters of
Math.random().toString(36).substring(2, 15).  A random value of zero
renders as the single character 0, whose substring from index 2 is empty;
a nonzero value renders as 0. followed by its base-36 fractional digits,
of which the substring keeps at most 13. -/
def randomSegment (k : Nat) : Str :=
  if k = 0 then [] else stripZeros (randFrac36 k)

/-- generateSecureId: the decimal timestamp, an underscore, and two random
base-36 segments, for Math.random outcomes k1 and k2 (each a fraction with
denominator two to the 53rd). -/
def generateSecureId (ts k1 k2 : Nat) : Str :=
  natToDec ts ++ ('_' :: (randomSegment k1 ++ randomSegment k2))

/-- The character class of the identifier tail: [a-z0-9]. -/
def isIdTailChar (c : Char) : Bool :=
  decide (('0' ≤ c ∧ c ≤ '9') ∨ ('a' ≤ c ∧ c ≤ 'z'))

/-- The anchored identifier-format regex used by deleteItem: one or more
decimal digits, an underscore, then one or more characters in [a-z0-9].
The digit run is taken maximally, which agrees with the backtracking
semantics because an underscore is not a digit. -/
def validIdFormat (id : Str) : Bool :=
  !(id.takeWhile Char.isDigit).isEmpty &&
  (match id.dropWhile Char.isDigit with
   | [] => false
   | c :: tail => c == '_' && !tail.isEmpty && tail.all isIdTailChar)

/-- An item of the list: identifier, sanitized text, and the two
timestamps. -/
structure Item where
  id : Str
  text : Str
  createdAt : Int
  lastModified : Int
deriving DecidableEq

/-- The outcome of validateAndSanitizeInput: either the sanitized value, or
the audit event name and user-facing message of the rejecting stage. -/
inductive VResult where
  | ok (sanitized : Str)
  | err (auditEvent : String) (message : String)
deriving DecidableEq

/-- The stages of validateAndSanitizeInput that follow the rate-limiter
check: length, validateInput, isValidContent, and context validation, then
sanitization of the trimmed input. -/
def coreValidate (input : Str) : VResult :=
  if !validateLength input 500 then
    VResult.err ("INPUT_TOO_LONG") ("Input is too long. Maximum 500 characters allowed.")
  else if !validateInput input then
    VResult.err ("MALICIOUS_INPUT_DETECTED") ("Invalid input detected. Please check your content.")
  else if !isValidContent input then
    VResult.err ("SUSPICIOUS_CONTENT_DETECTED") ("Potentially unsafe content detected.")
  else if !validateForContextText input then
    VResult.err ("CONTEXT_VALIDATION_FAILED") ("Content failed security validation.")
  else VResult.ok (sanitizeHtml (jsTrim input))

/-- validateAndSanitizeInput from the application: the shared rate limiter
is consulted first under the crud_operations key (and its recording, when
the call is admitted, persists whether or not a later stage rejects); then
the validation stages run. -/
def validateAndSanitizeInput (rl : RLState) (now : Int) (input : Str) :
    VResult × RLState :=
  ((if (isAllowed 10 60000 rl now ("crud_operations")).1
    then coreValidate input
    else VResult.err ("RATE_LIMIT_EXCEEDED") ("Too many requests. Please wait before trying again.")),
   (isAllowed 10 60000 rl now ("crud_operations")).2)

/-- addItem: validate the raw input; on success append a new item whose
text is the sanitized value and whose two timestamps are both the current
time; on rejection leave the list unchanged.  The generated identifier is
passed in as the outcome of generateSecureId. -/
def addItem (items : List Item) (rl : RLState) (now : Int) (newId : Str)
    (input : Str) : List Item × RLState × VResult :=
  match validateAndSanitizeInput rl now input with
  | (VResult.ok s, rl2) =>
      if s.isEmpty then (items, rl2, VResult.ok s)
      else (items ++ [{ id := newId, text := s, createdAt := now, lastModified := now }],
            rl2, VResult.ok s)
  | (VResult.err e m, rl2) => (items, rl2, VResult.err e m)

/-- Recognizer of the context-validation rejection among pipeline outcomes. -/
def isContextRejection : VResult → Bool
  | VResult.err e _ => e == "CONTEXT_VALIDATION_FAILED"
  | VResult.ok _ => false

/-- The outcome of deleteItem, named by the audit events of its branches. -/
inductive DelResult where
  | INVALID_DELETE_ID
  | DELETE_RATE_LIMIT_EXCEEDED
  | ITEM_DELETED
deriving DecidableEq

/-- deleteItem: the identifier format is checked before anything else; a
malformed identifier leaves both the list and the rate limiter untouched.
Otherwise the limiter is consulted under the delete_operations key and, if
admitted, the item with the given identifier is filtered out. -/
def deleteItem (items : List Item) (rl : RLState) (now : Int) (id : Str) :
    List Item × RLState × DelResult :=
  if !validIdFormat id then (items, rl, DelResult.INVALID_DELETE_ID)
  else if !(isAllowed 10 60000 rl now ("delete_operations")).1 then
    (items, rl, DelResult.DELETE_RATE_LIMIT_EXCEEDED)
  else (items.filter (fun it => !(it.id == id)),
        (isAllowed 10 60000 rl now ("delete_operations")).2,
        DelResult.ITEM_DELETED)

/-- saveEdit: validate the edited text; on success rewrite the text and
lastModified of the item whose identifier is being edited; on rejection
leave the list unchanged. -/
def saveEdit (items : List Item) (rl : RLState) (now : Int)
    (editingId : Str) (editingText : Str) : List Item × RLState × VResult :=
  match validateAndSanitizeInput rl now editingText with
  | (VResult.ok s, rl2) =>
      (if s.isEmpty then items
       else items.map (fun it =>
         if it.id = editingId
         then { it with text := s, lastModified := now }
         else it),
       rl2, VResult.ok s)
  | (VResult.err e m, rl2) => (items, rl2, VResult.err e m)

/-- A global character replacement distributes over list append. -/
theorem replChar_append (x : Char) (r a b : Str) :
    replChar x r (a ++ b) = replChar x r a ++ replChar x r b := by
  simp [replChar]

/-- A global character replacement on a one-character string. -/
theorem replChar_one (x : Char) (r : Str) (c : Char) :
    replChar x r [c] = if c = x then r else [c] := by
  simp [replChar]

/-- sanitizeHtml distributes over list append. -/
theorem sanitizeHtml_append (a b : Str) :
    sanitizeHtml (a ++ b) = sanitizeHtml a ++ sanitizeHtml b := by
  simp [sanitizeHtml, replChar_append]

/-- sanitizeHtml on a one-character string performs the per-character
escape. -/
theorem sanitizeHtml_one (c : Char) : sanitizeHtml [c] = escChar c := by
  by_cases h1 : c = '&'
  · subst h1; decide
  by_cases h2 : c = '<'
  · subst h2; decide
  by_cases h3 : c = '>'
  · subst h3; decide
  by_cases h4 : c = '"'
  · subst h4; decide
  by_cases h5 : c = apos
  · subst h5; decide
  by_cases h6 : c = '/'
  · subst h6; decide
  simp [sanitizeHtml, replChar, escChar, h1, h2, h3, h4, h5, h6]

/-- sanitizeHtml is the single left-to-right pass that maps every character
to its escape: the six sequential replacements never rewrite the output of
an earlier one, because the ampersand pass comes first. -/
theorem sanitizeHtml_eq_flatten (s : Str) :
    sanitizeHtml s = (s.map escChar).flatten := by
  induction s with
  | nil => rfl
  | cons c cs ih =>
      have h : c :: cs = [c] ++ cs := rfl
      rw [h, sanitizeHtml_append, sanitizeHtml_one]
      simp [ih]

/-- Replacing a character that does not occur is the identity. -/
theorem replChar_of_not_mem (x : Char) (r : Str) :
    ∀ (s : Str), (∀ c ∈ s, c ≠ x) → replChar x r s = s := by
  intro s
  induction s with
  | nil => intro _; rfl
  | cons c cs ih =>
      intro h
      have h1 : c :: cs = [c] ++ cs := rfl
      rw [h1, replChar_append, replChar_one,
          if_neg (h c (by simp)), ih (fun d hd => h d (by simp [hd]))]

/-- Characters of a replacement output come from the input or from the
replacement string. -/
theorem mem_replChar (x : Char) (r : Str) (c : Char) :
    ∀ (s : Str), c ∈ replChar x r s → c ∈ s ∨ c ∈ r := by
  intro s
  induction s with
  | nil => intro h; simp [replChar] at h
  | cons d ds ih =>
      intro h
      have h1 : d :: ds = [d] ++ ds := rfl
      rw [h1, replChar_append] at h
      rcases List.mem_append.mp h with h2 | h3
      · rw [replChar_one] at h2
        by_cases hd : d = x
        · rw [if_pos hd] at h2; exact Or.inr h2
        · rw [if_neg hd] at h2
          simp at h2
          subst h2
          exact Or.inl (by simp)
      · rcases ih h3 with h4 | h5
        · exact Or.inl (List.mem_cons_of_mem _ h4)
        · exact Or.inr h5

/-- The trim of a string is empty exactly when every character is
whitespace. -/
theorem jsTrim_eq_nil_iff (s : Str) :
    jsTrim s = [] ↔ ∀ c ∈ s, isJsSpace c = true := by
  rw [jsTrim, List.reverse_eq_nil_iff, List.dropWhile_eq_nil_iff]
  constructor
  · intro h c hc
    by_cases hdrop : c ∈ s.dropWhile isJsSpace
    · exact h c (by rw [List.mem_reverse]; exact hdrop)
    · have hsplit := List.takeWhile_append_dropWhile isJsSpace s
      rw [← hsplit] at hc
      rcases List.mem_append.mp hc with h1 | h2
      · exact List.mem_takeWhile_imp h1
      · exact absurd h2 hdrop
  · intro h c hc
    rw [List.mem_reverse] at hc
    exact h c ((List.dropWhile_sublist isJsSpace).subset hc)

/-- A string holding a non-whitespace character does not trim to empty. -/
theorem jsTrim_not_empty (s : Str) (c : Char) (hc : c ∈ s)
    (hw : isJsSpace c = false) : (jsTrim s).isEmpty = false := by
  rw [Bool.eq_false_iff]
  intro h
  rw [List.isEmpty_iff] at h
  have := (jsTrim_eq_nil_iff s).mp h c hc
  rw [hw] at this
  exact Bool.false_ne_true this

/-- The substring test characterized as the infix relation. -/
theorem hasSub_iff (pat l : Str) : hasSub pat l = true ↔ pat <:+: l := by
  rw [hasSub, List.any_eq_true]
  constructor
  · rintro ⟨t, ht, hp⟩
    rw [List.mem_tails] at ht
    rw [ List.isPrefixOf_iff_prefix] at hp
    exact List.infix_iff_prefix_suffix.mpr ⟨t, hp, ht⟩
  · intro h
    obtain ⟨t, hp, ht⟩ := List.infix_iff_prefix_suffix.mp h
    exact ⟨t, (List.mem_tails _ _).mpr ht, ( List.isPrefixOf_iff_prefix).mpr hp⟩

/-- A pattern fixed by lower-casing that is absent from the lower-cased
string is absent from the original string. -/
theorem hasSub_of_lcs (pat t : Str) (hfix : lcs pat = pat)
    (h : hasSub pat (lcs t) = false) : hasSub pat t = false := by
  rw [Bool.eq_false_iff]
  intro hc
  have hinf := (hasSub_iff pat t).mp hc
  have hinf2 := List.IsInfix.map Char.toLower hinf
  rw [show List.map Char.toLower pat = lcs pat from rfl, hfix] at hinf2
  have := (hasSub_iff pat (lcs t)).mpr hinf2
  rw [h] at this
  exact Bool.false_ne_true this

/-- Lower-casing is the identity away from the upper-case letters. -/
theorem eq_of_toLower_eq (c p : Char) (hp : p.toNat < 97 ∨ 122 < p.toNat)
    (h : c.toLower = p) : c = p := by
  simp only [Char.toLower] at h
  by_cases hu : c.toNat ≥ 65 ∧ c.toNat ≤ 90
  · rw [if_pos hu] at h
    have hv : (c.toNat + 32).isValidChar := Or.inl (by omega)
    have hn : (Char.ofNat (c.toNat + 32)).toNat = c.toNat + 32 := by
      rw [Char.ofNat, dif_pos hv]
      simp [Char.ofNatAux, Char.toNat, UInt32.toNat, BitVec.toNat_ofNatLt]
    have hpn : p.toNat = c.toNat + 32 := by rw [← h]; exact hn
    omega
  · rwa [if_neg hu] at h

/-- An isAllowed call whose stored attempts all lie inside the window and
whose count is below the limit is admitted and appends the current time. -/
theorem isAllowed_admit (m : Nat) (w : Int) (st : RLState) (now : Int) (k : String)
    (hwin : ∀ t ∈ st k, now - t < w) (hlen : (st k).length < m) :
    isAllowed m w st now k =
      (true, fun kk => if kk = k then st k ++ [now] else st kk) := by
  have hf : (st k).filter (fun t => decide (now - t < w)) = st k :=
    List.filter_eq_self.mpr (fun a ha => decide_eq_true (hwin a ha))
  simp only [isAllowed, hf]
  rw [if_neg (by omega)]

/-- An isAllowed call whose stored attempts all lie inside the window and
whose count has reached the limit is refused and leaves the state
untouched. -/
theorem isAllowed_reject (m : Nat) (w : Int) (st : RLState) (now : Int) (k : String)
    (hwin : ∀ t ∈ st k, now - t < w) (hlen : m ≤ (st k).length) :
    isAllowed m w st now k = (false, st) := by
  have hf : (st k).filter (fun t => decide (now - t < w)) = st k :=
    List.filter_eq_self.mpr (fun a ha => decide_eq_true (hwin a ha))
  simp only [isAllowed, hf]
  rw [if_pos hlen]

/-- An isAllowed call is admitted whenever fewer timestamps than the limit
are stored, regardless of the window. -/
theorem isAllowed_fst_of_lt (m : Nat) (w : Int) (st : RLState) (now : Int)
    (k : String) (hlen : (st k).length < m) :
    (isAllowed m w st now k).1 = true := by
  have hle := List.length_filter_le (fun t => decide (now - t < w)) (st k)
  simp only [isAllowed]
  rw [if_neg (by omega)]

/-- Runs of the default rate limiter that stay within the limit: every call
is admitted and the timestamps accumulate in order. -/
theorem callSeq_admits (k : String) :
    ∀ (ts : List Int) (st : RLState) (l : List Int),
      st k = l → l.length + ts.length ≤ 10 →
      (∀ t ∈ ts, ∀ u ∈ l ++ ts, t - u < 60000) →
      (callSeq k st ts).1 = List.replicate ts.length true ∧
      (callSeq k st ts).2 k = l ++ ts := by
  intro ts
  induction ts with
  | nil =>
      intro st l hst _ _
      constructor
      · rfl
      · simp [callSeq, hst]
  | cons t ts ih =>
      intro st l hst hlen hwin
      have hwin1 : ∀ u ∈ st k, t - u < 60000 := by
        intro u hu
        rw [hst] at hu
        exact hwin t (by simp) u (List.mem_append_left _ hu)
      have hlen1 : (st k).length < 10 := by
        rw [hst]
        simp at hlen
        omega
      have hA := isAllowed_admit 10 60000 st t k hwin1 hlen1
      have hst2 : ((fun kk => if kk = k then st k ++ [t] else st kk) : RLState) k
          = l ++ [t] := by
        simp [hst]
      have hrec := ih (fun kk => if kk = k then st k ++ [t] else st kk) (l ++ [t])
        hst2
        (by simp at hlen ⊢; omega)
        (by
          intro s hs u hu
          apply hwin s (List.mem_cons_of_mem _ hs)
          simp only [List.mem_append, List.mem_cons] at hu ⊢
          tauto)
      constructor
      · simp only [callSeq, hA]
        rw [hrec.1]
        rfl
      · simp only [callSeq, hA]
        rw [hrec.2, List.append_assoc, List.singleton_append]

/-- The decimal digit characters are digits. -/
theorem decDigit_isDigit (d : Nat) (h : d < 10) : (decDigit d).isDigit = true := by
  interval_cases d <;> decide

/-- The decimal rendering is nonempty and consists of digit characters. -/
theorem natToDecAux_spec :
    ∀ (fuel n : Nat), n < fuel →
      natToDecAux fuel n ≠ [] ∧ ∀ c ∈ natToDecAux fuel n, c.isDigit = true := by
  intro fuel
  induction fuel with
  | zero => intro n h; omega
  | succ f ih =>
      intro n h
      by_cases h10 : n < 10
      · constructor
        · simp [natToDecAux, h10]
        · intro c hc
          simp [natToDecAux, h10] at hc
          subst hc
          exact decDigit_isDigit n h10
      · have hn : n / 10 < f := by omega
        obtain ⟨hne, hdig⟩ := ih (n / 10) hn
        constructor
        · simp [natToDecAux, h10]
        · intro c hc
          simp [natToDecAux, h10] at hc
          rcases hc with hc | hc
          · exact hdig c hc
          · subst hc
            exact decDigit_isDigit (n % 10) (Nat.mod_lt _ (by norm_num))

/-- The decimal rendering of the timestamp is nonempty and all digits. -/
theorem natToDec_spec (n : Nat) :
    natToDec n ≠ [] ∧ ∀ c ∈ natToDec n, c.isDigit = true :=
  natToDecAux_spec (n + 1) n (by omega)

/-- takeWhile over an append whose left part satisfies the predicate. -/
theorem takeWhile_append_all (p : Char → Bool) (b : Str) :
    ∀ (a : Str), (∀ c ∈ a, p c = true) →
      (a ++ b).takeWhile p = a ++ b.takeWhile p := by
  intro a
  induction a with
  | nil => intro _; simp
  | cons c cs ih =>
      intro h
      have hc := h c (by simp)
      simp only [List.cons_append, List.takeWhile_cons, hc]
      rw [if_pos trivial, ih (fun d hd => h d (by simp [hd]))]

/-- dropWhile over an append whose left part satisfies the predicate. -/
theorem dropWhile_append_all (p : Char → Bool) (b : Str) :
    ∀ (a : Str), (∀ c ∈ a, p c = true) →
      (a ++ b).dropWhile p = b.dropWhile p := by
  intro a
  induction a with
  | nil => intro _; simp
  | cons c cs ih =>
      intro h
      have hc := h c (by simp)
      simp only [List.cons_append, List.dropWhile_cons, hc]
      rw [if_pos trivial, ih (fun d hd => h d (by simp [hd]))]

/-- Multiplying by 36 before a division changes the quotient by at most the
carried remainder. -/
theorem mul36_div_bounds (a m : Nat) (hm : 0 < m) :
    36 * (a / m) ≤ 36 * a / m ∧ 36 * a / m ≤ 36 * (a / m) + 35 := by
  have key : 36 * a / m = 36 * (a / m) + 36 * (a % m) / m := by
    conv_lhs => rw [← Nat.div_add_mod a m]
    rw [Nat.mul_add, Nat.mul_left_comm]
    rw [Nat.mul_add_div hm]
  have hb : 36 * (a % m) / m < 36 := by
    rw [Nat.div_lt_iff_lt_mul hm]
    have := Nat.mod_lt a hm
    omega
  constructor
  · rw [key]
    exact Nat.le_add_right _ _
  · rw [key]
    exact Nat.add_le_add_left (Nat.le_of_lt_succ hb) _

/-- A nonzero Math.random granule has a nonzero digit among the first 13
base-36 fractional places: the 13th power of 36 already exceeds the
granularity. -/
theorem randFrac36_nonzero_digit (k : Nat) (hk : k ≠ 0) (hlt : k < 2 ^ 53) :
    ¬ ∀ i < 13, k * 36 ^ (i + 1) / 2 ^ 53 % 36 = 0 := by
  intro hall
  have hstep : ∀ i < 13, k * 36 ^ (i + 1) / 2 ^ 53 = 36 * (k * 36 ^ i / 2 ^ 53) := by
    intro i hi
    have hb := mul36_div_bounds (k * 36 ^ i) (2 ^ 53) (by positivity)
    have heq : 36 * (k * 36 ^ i) = k * 36 ^ (i + 1) := by ring
    rw [heq] at hb
    have hz := hall i hi
    omega
  have hzero : ∀ i ≤ 13, k * 36 ^ i / 2 ^ 53 = 0 := by
    intro i
    induction i with
    | zero => intro _; simpa using Nat.div_eq_of_lt hlt
    | succ j ihj =>
        intro hj
        rw [hstep j (by omega), ihj (by omega)]
  have h13 := hzero 13 (by omega)
  rw [Nat.div_eq_zero_iff (by positivity)] at h13
  have hge : 2 ^ 53 ≤ k * 36 ^ 13 := by
    calc (2 : Nat) ^ 53 ≤ 36 ^ 13 := by norm_num
    _ ≤ k * 36 ^ 13 := Nat.le_mul_of_pos_left _ (by omega)
  omega

/-- Base-36 digit characters below 36 lie in the identifier tail class. -/
theorem digitChar36_tail (d : Nat) (h : d < 36) :
    isIdTailChar (digitChar36 d) = true := by
  interval_cases d <;> decide

/-- The only base-36 digit character rendering as the zero character is the
zero digit. -/
theorem digitChar36_eq_zero (d : Nat) (h : d < 36) (hd : digitChar36 d = '0') :
    d = 0 := by
  interval_cases d <;> first | rfl | exact absurd hd (by decide)

/-- Characters survive trailing-zero stripping only if present initially. -/
theorem mem_stripZeros (s : Str) (c : Char) (h : c ∈ stripZeros s) : c ∈ s := by
  rw [stripZeros, List.mem_reverse] at h
  rw [← List.mem_reverse]
  exact (List.dropWhile_sublist _).subset h

/-- Every character of a random segment lies in the identifier tail class. -/
theorem randomSegment_chars (k : Nat) (c : Char) (h : c ∈ randomSegment k) :
    isIdTailChar c = true := by
  rw [randomSegment] at h
  by_cases hk : k = 0
  · rw [if_pos hk] at h
    exact absurd h (List.not_mem_nil c)
  · rw [if_neg hk] at h
    have h2 := mem_stripZeros _ _ h
    rw [randFrac36] at h2
    simp only [List.mem_map, List.mem_range] at h2
    obtain ⟨i, _, hi⟩ := h2
    rw [← hi]
    exact digitChar36_tail _ (Nat.mod_lt _ (by norm_num))

/-- The random segment of a nonzero Math.random granule is nonempty. -/
theorem randomSegment_ne_nil (k : Nat) (hk : k ≠ 0) (hlt : k < 2 ^ 53) :
    randomSegment k ≠ [] := by
  intro hempty
  rw [randomSegment, if_neg hk, stripZeros, List.reverse_eq_nil_iff,
      List.dropWhile_eq_nil_iff] at hempty
  have hall : ∀ i < 13, k * 36 ^ (i + 1) / 2 ^ 53 % 36 = 0 := by
    intro i hi
    have hmem : digitChar36 (k * 36 ^ (i + 1) / 2 ^ 53 % 36) ∈ randFrac36 k := by
      rw [randFrac36]
      exact List.mem_map_of_mem _ (List.mem_range.mpr hi)
    have hz := hempty _ (List.mem_reverse.mpr hmem)
    rw [beq_iff_eq] at hz
    exact digitChar36_eq_zero _ (Nat.mod_lt _ (by norm_num)) hz
  exact randFrac36_nonzero_digit k hk hlt hall

/-- C3: sanitizeHtml applied to the literal string consisting of the seven
characters less-than, b, greater-than, ampersand, double quote, apostrophe,
slash yields exactly the entity string, and on every input the six
sequential replacements act as one per-character escaping pass (ampersand
first), so the ampersands inside entities produced by the later
substitutions are never re-escaped. -/
theorem C3_sanitizer_roundtrip :
    sanitizeHtml ('<' :: 'b' :: '>' :: '&' :: '"' :: apos :: '/' :: []) =
      ("&lt;b&gt;&amp;&quot;&#x27;&#x2F;".toList) ∧
    ∀ s : Str, sanitizeHtml s = (s.map escChar).flatten := by
  constructor
  · decide
  · exact sanitizeHtml_eq_flatten

/-- C5: deleteItem rejects every identifier failing the format regex as an
invalid identifier before consulting the rate limiter, and leaves both the
item list and the limiter state exactly as they were. -/
theorem C5_delete_invalid_id (items : List Item) (rl : RLState) (now : Int)
    (id : Str) (h : validIdFormat id = false) :
    deleteItem items rl now id = (items, rl, DelResult.INVALID_DELETE_ID) := by
  simp [deleteItem, h]

/-- C5 witness: the identifier abc fails the format regex and its delete is
a pure rejection. -/
theorem C5_delete_invalid_id_witness :
    validIdFormat ("abc".toList) = false ∧
    deleteItem [] freshRL 0 ("abc".toList) =
      ([], freshRL, DelResult.INVALID_DELETE_ID) :=
  ⟨by decide, C5_delete_invalid_id [] freshRL 0 ("abc".toList) (by decide)⟩

/-- C7: an input longer than 500 characters that is admitted by the rate
limiter is rejected as too long, whatever its content. -/
theorem C7_too_long (rl : RLState) (now : Int) (input : Str)
    (hrl : (isAllowed 10 60000 rl now ("crud_operations")).1 = true)
    (hlen : 500 < input.length) :
    (validateAndSanitizeInput rl now input).1 =
      VResult.err ("INPUT_TOO_LONG") ("Input is too long. Maximum 500 characters allowed.") := by
  have hvl : validateLength input 500 = false := by
    rw [validateLength]
    exact decide_eq_false (by omega)
  simp [validateAndSanitizeInput, hrl, coreValidate, hvl]

/-- C7 witness: 501 letters are rejected as too long. -/
theorem C7_too_long_witness :
    (isAllowed 10 60000 freshRL 0 ("crud_operations")).1 = true ∧
    500 < (List.replicate 501 'a').length ∧
    (validateAndSanitizeInput freshRL 0 (List.replicate 501 'a')).1 =
      VResult.err ("INPUT_TOO_LONG") ("Input is too long. Maximum 500 characters allowed.") :=
  ⟨by decide, by simp,
   C7_too_long freshRL 0 (List.replicate 501 'a') (by decide) (by simp)⟩

/-- C8 counterexample: a whitespace-only input is rejected with the very
same audit event and message as a malicious-pattern input, so no distinct
empty-input rejection reason exists. -/
theorem C8_no_distinct_empty_reason :
    (validateAndSanitizeInput freshRL 0 ([' '])).1 =
      VResult.err ("MALICIOUS_INPUT_DETECTED") ("Invalid input detected. Please check your content.") ∧
    (validateAndSanitizeInput freshRL 0 ("<iframe".toList)).1 =
      VResult.err ("MALICIOUS_INPUT_DETECTED") ("Invalid input detected. Please check your content.") := by
  constructor
  · decide
  · decide

/-- C8 (amended): an input that is empty after trimming, admitted by the
rate limiter and within the length bound, is rejected by the combined
validateInput stage, with the same reason as malicious-pattern rejections
rather than a distinct empty-input reason. -/
theorem C8_empty_rejected_as_invalid (rl : RLState) (now : Int) (input : Str)
    (hrl : (isAllowed 10 60000 rl now ("crud_operations")).1 = true)
    (hlen : input.length ≤ 500)
    (ht : jsTrim input = []) :
    (validateAndSanitizeInput rl now input).1 =
      VResult.err ("MALICIOUS_INPUT_DETECTED") ("Invalid input detected. Please check your content.") := by
  have htb : (jsTrim input).isEmpty = true := by
    rw [List.isEmpty_iff]
    exact ht
  have hval : validateInput input = false := by
    simp [validateInput, htb]
  have hvl : validateLength input 500 = true := by
    rw [validateLength]
    exact decide_eq_true hlen
  simp [validateAndSanitizeInput, hrl, coreValidate, hvl, hval]

/-- C8 witness: a single space is empty after trimming and is rejected with
the malicious-input reason. -/
theorem C8_empty_rejected_as_invalid_witness :
    (isAllowed 10 60000 freshRL 0 ("crud_operations")).1 = true ∧
    ([' '] : Str).length ≤ 500 ∧
    jsTrim ([' ']) = [] ∧
    (validateAndSanitizeInput freshRL 0 ([' '])).1 =
      VResult.err ("MALICIOUS_INPUT_DETECTED") ("Invalid input detected. Please check your content.") :=
  ⟨by decide, by decide, by decide,
   C8_empty_rejected_as_invalid freshRL 0 ([' ']) (by decide) (by decide) (by decide)⟩

/-- C9: the text branch of validateForContext is exactly the conjunction of
validateInput and isValidContent, and consequently the pipeline can never
produce the context-validation rejection: whenever stage six runs, its
predicate is already true. -/
theorem C9_context_stage_unreachable (rl : RLState) (now : Int) (input : Str) :
    validateForContextText input = (validateInput input && isValidContent input) ∧
    isContextRejection (validateAndSanitizeInput rl now input).1 = false := by
  refine ⟨rfl, ?_⟩
  simp only [validateAndSanitizeInput]
  by_cases hrl : (isAllowed 10 60000 rl now ("crud_operations")).1 = true
  · cases hl : validateLength input 500 with
    | false => simp [coreValidate, hrl, hl, isContextRejection]
    | true =>
        cases hv : validateInput input with
        | false => simp [coreValidate, hrl, hl, hv, isContextRejection]
        | true =>
            cases hc : isValidContent input with
            | false => simp [coreValidate, hrl, hl, hv, hc, isContextRejection]
            | true =>
                have hctx : validateForContextText input = true := by
                  simp [validateForContextText, hv, hc]
                simp [coreValidate, hrl, hl, hv, hc, hctx, isContextRejection]
  · simp [hrl, isContextRejection]

/-- C1 counterexample: a bare open script tag with no closing tag (length
8, not rate limited) passes the malicious-pattern stage, whose script
regex demands a closing tag, and is rejected only by the later content
scan with the suspicious-content reason. -/
theorem C1_script_without_close_not_malicious :
    (validateAndSanitizeInput freshRL 0 ("<script>".toList)).1 =
      VResult.err ("SUSPICIOUS_CONTENT_DETECTED") ("Potentially unsafe content detected.") := by
  decide

/-- C1 (amended): an input containing a complete script element, namely an
open script tag at a word boundary eventually followed by a closing tag,
in any casing and with any attribute content, that is admitted by the rate
limiter and no longer than 500 characters, is rejected by the
malicious-pattern stage and by no later stage. -/
theorem C1_script_element_malicious (rl : RLState) (now : Int) (input : Str)
    (hrl : (isAllowed 10 60000 rl now ("crud_operations")).1 = true)
    (hlen : input.length ≤ 500)
    (hscript : hasScriptEl (lcs input) = true) :
    (validateAndSanitizeInput rl now input).1 =
      VResult.err ("MALICIOUS_INPUT_DETECTED") ("Invalid input detected. Please check your content.") := by
  have hmem : '<' ∈ input := by
    rw [hasScriptEl, List.any_eq_true] at hscript
    obtain ⟨t, ht, hel⟩ := hscript
    rw [List.mem_tails] at ht
    simp only [scriptElAt, Bool.and_eq_true] at hel
    obtain ⟨⟨hpre, hbd⟩, hclose⟩ := hel
    rw [ List.isPrefixOf_iff_prefix] at hpre
    obtain ⟨rest, hrest⟩ := hpre
    have hlt : '<' ∈ t := by
      rw [← hrest]
      simp
    have hlcs : '<' ∈ lcs input := ht.subset hlt
    rw [lcs, List.mem_map] at hlcs
    obtain ⟨c, hc, hcl⟩ := hlcs
    have hceq : c = '<' := eq_of_toLower_eq c '<' (by decide) hcl
    rwa [hceq] at hc
  have htrim : (jsTrim input).isEmpty = false :=
    jsTrim_not_empty input '<' hmem (by decide)
  have hmal : maliciousMatch input = true := by
    simp [maliciousMatch, hscript]
  have hval : validateInput input = false := by
    simp [validateInput, htrim, hmal]
  have hvl : validateLength input 500 = true := by
    rw [validateLength]
    exact decide_eq_true hlen
  simp [validateAndSanitizeInput, hrl, coreValidate, hvl, hval]

/-- C1 witness: a complete script element is rejected with the
malicious-input reason. -/
theorem C1_script_element_malicious_witness :
    (isAllowed 10 60000 freshRL 0 ("crud_operations")).1 = true ∧
    ("<script>x</script>".toList).length ≤ 500 ∧
    hasScriptEl (lcs ("<script>x</script>".toList)) = true ∧
    (validateAndSanitizeInput freshRL 0 ("<script>x</script>".toList)).1 =
      VResult.err ("MALICIOUS_INPUT_DETECTED") ("Invalid input detected. Please check your content.") :=
  ⟨by decide, by decide, by decide,
   C1_script_element_malicious freshRL 0 ("<script>x</script>".toList)
     (by decide) (by decide) (by decide)⟩

/-- C2: for the default limiter (ten attempts per 60000 ms window) on any
key from the empty state, ten calls within the window of the first are all
admitted, an eleventh call inside the same window is refused without
recording anything (the attempts map is returned unchanged), and a further
call made more than 60000 ms after the first call is admitted again. -/
theorem C2_rate_limiter_window (k : String) (t0 t10 u : Int) (rest : List Int)
    (hlen : rest.length = 9)
    (hmem : ∀ t ∈ t0 :: rest ++ [t10], t0 ≤ t ∧ t - t0 < 60000)
    (hu : 60000 < u - t0) :
    (callSeq k freshRL (t0 :: rest)).1 = List.replicate 10 true ∧
    isAllowed 10 60000 (callSeq k freshRL (t0 :: rest)).2 t10 k =
      (false, (callSeq k freshRL (t0 :: rest)).2) ∧
    (isAllowed 10 60000 (callSeq k freshRL (t0 :: rest)).2 u k).1 = true := by
  have hrun := callSeq_admits k (t0 :: rest) freshRL [] rfl
    (by simp [hlen])
    (by
      intro t htl v hv
      simp only [List.nil_append] at hv
      have h1 := hmem t (by
        rcases List.mem_cons.mp htl with h | h
        · exact List.mem_cons.mpr (Or.inl h)
        · exact List.mem_cons.mpr (Or.inr (List.mem_append_left _ h)))
      have h2 := hmem v (by
        rcases List.mem_cons.mp hv with h | h
        · exact List.mem_cons.mpr (Or.inl h)
        · exact List.mem_cons.mpr (Or.inr (List.mem_append_left _ h)))
      omega)
  obtain ⟨hres, hstate⟩ := hrun
  rw [List.nil_append] at hstate
  have hlen10 : ((callSeq k freshRL (t0 :: rest)).2 k).length = 10 := by
    rw [hstate]
    simp [hlen]
  refine ⟨by rw [hres]; simp [hlen], ?_, ?_⟩
  · apply isAllowed_reject
    · intro t htl
      rw [hstate] at htl
      have h1 := hmem t (by
        rcases List.mem_cons.mp htl with h | h
        · exact List.mem_cons.mpr (Or.inl h)
        · exact List.mem_cons.mpr (Or.inr (List.mem_append_left _ h)))
      have h2 := hmem t10
        (List.mem_cons.mpr (Or.inr (List.mem_append_right _ (by simp))))
      omega
    · omega
  · simp only [isAllowed]
    rw [hstate]
    have hp : (decide (u - t0 < 60000)) = false := decide_eq_false (by omega)
    rw [List.filter_cons_of_neg (by simp [hp])]
    have hfl := List.length_filter_le (fun t => decide (u - t < 60000)) rest
    rw [if_neg (by omega)]

/-- C2 witness: calls at milliseconds zero through nine, an eleventh at
ten, and a final call at 60001. -/
theorem C2_rate_limiter_window_witness :
    ([1, 2, 3, 4, 5, 6, 7, 8, 9] : List Int).length = 9 ∧
    (∀ t ∈ (0 : Int) :: ([1, 2, 3, 4, 5, 6, 7, 8, 9] : List Int) ++ [10],
       (0 : Int) ≤ t ∧ t - 0 < 60000) ∧
    (60000 : Int) < 60001 - 0 ∧
    (callSeq ("k") freshRL ((0 : Int) :: [1, 2, 3, 4, 5, 6, 7, 8, 9])).1 =
      List.replicate 10 true ∧
    isAllowed 10 60000
        (callSeq ("k") freshRL ((0 : Int) :: [1, 2, 3, 4, 5, 6, 7, 8, 9])).2 10 ("k") =
      (false, (callSeq ("k") freshRL ((0 : Int) :: [1, 2, 3, 4, 5, 6, 7, 8, 9])).2) ∧
    (isAllowed 10 60000
        (callSeq ("k") freshRL ((0 : Int) :: [1, 2, 3, 4, 5, 6, 7, 8, 9])).2 60001 ("k")).1 =
      true := by
  have h := C2_rate_limiter_window ("k") 0 10 60001 [1, 2, 3, 4, 5, 6, 7, 8, 9]
    (by decide) (by decide) (by decide)
  exact ⟨by decide, by decide, by decide, h.1, h.2.1, h.2.2⟩

/-- A pipeline run admitted by the rate limiter performs the validation
stages and keeps the limiter recording. -/
theorem validateAndSanitize_admitted (rl : RLState) (now : Int) (input : Str)
    (h : (isAllowed 10 60000 rl now ("crud_operations")).1 = true) :
    validateAndSanitizeInput rl now input =
      (coreValidate input, (isAllowed 10 60000 rl now ("crud_operations")).2) := by
  simp [validateAndSanitizeInput, h]

/-- C4: from an empty list and a fresh limiter, adding the text Buy milk is
accepted and appends an item with exactly that text and equal creation and
modification timestamps; a subsequent edit of that item to an image tag
with an inline error handler is rejected by the malicious-pattern stage
and the stored list, including that item, is unchanged. -/
theorem C4_add_then_rejected_edit (n1 n2 : Int) (newId : Str) :
    (addItem [] freshRL n1 newId ("Buy milk".toList)).1 =
      [{ id := newId, text := ("Buy milk".toList), createdAt := n1, lastModified := n1 }] ∧
    (addItem [] freshRL n1 newId ("Buy milk".toList)).2.2 =
      VResult.ok ("Buy milk".toList) ∧
    (saveEdit (addItem [] freshRL n1 newId ("Buy milk".toList)).1
        (addItem [] freshRL n1 newId ("Buy milk".toList)).2.1 n2 newId
        ("<img src=x onerror=alert(1)>".toList)).2.2 =
      VResult.err ("MALICIOUS_INPUT_DETECTED") ("Invalid input detected. Please check your content.") ∧
    (saveEdit (addItem [] freshRL n1 newId ("Buy milk".toList)).1
        (addItem [] freshRL n1 newId ("Buy milk".toList)).2.1 n2 newId
        ("<img src=x onerror=alert(1)>".toList)).1 =
      (addItem [] freshRL n1 newId ("Buy milk".toList)).1 := by
  have hfst : (isAllowed 10 60000 freshRL n1 ("crud_operations")).1 = true :=
    isAllowed_fst_of_lt 10 60000 freshRL n1 ("crud_operations") (by simp [freshRL])
  have hcore : coreValidate ("Buy milk".toList) = VResult.ok ("Buy milk".toList) := by
    decide
  have hVS1 := validateAndSanitize_admitted freshRL n1 ("Buy milk".toList) hfst
  have hadd : addItem [] freshRL n1 newId ("Buy milk".toList) =
      ([{ id := newId, text := ("Buy milk".toList), createdAt := n1, lastModified := n1 }],
       (isAllowed 10 60000 freshRL n1 ("crud_operations")).2,
       VResult.ok ("Buy milk".toList)) := by
    simp only [addItem]
    rw [hVS1, hcore]
    simp
  have hsts : (isAllowed 10 60000 freshRL n1 ("crud_operations")).2 ("crud_operations")
      = [n1] := by
    simp [isAllowed, freshRL]
  have hfst2 : (isAllowed 10 60000 ((isAllowed 10 60000 freshRL n1 ("crud_operations")).2)
      n2 ("crud_operations")).1 = true := by
    apply isAllowed_fst_of_lt
    rw [hsts]
    norm_num
  have hcore2 : coreValidate ("<img src=x onerror=alert(1)>".toList) =
      VResult.err ("MALICIOUS_INPUT_DETECTED") ("Invalid input detected. Please check your content.") := by
    decide
  have hVS2 := validateAndSanitize_admitted
    ((isAllowed 10 60000 freshRL n1 ("crud_operations")).2) n2
    ("<img src=x onerror=alert(1)>".toList) hfst2
  rw [hadd]
  refine ⟨rfl, rfl, ?_, ?_⟩
  · simp only [saveEdit]
    rw [hVS2, hcore2]
  · simp only [saveEdit]
    rw [hVS2, hcore2]

/-- C6 counterexample: when both random fractions are exactly zero, both
base-36 segments are empty, the generated identifier is the bare timestamp
followed by an underscore, and it fails the delete format check. -/
theorem C6_zero_fractions_invalid_id :
    validIdFormat (generateSecureId 0 0 0) = false := by
  decide

/-- C6 (amended): for every timestamp and every pair of Math.random
granules below two to the 53rd of which at least one is nonzero, the
generated identifier is one or more digits, an underscore, then at least
one base-36 character, and so passes the delete format check. -/
theorem C6_generated_id_format (ts k1 k2 : Nat) (h1 : k1 < 2 ^ 53)
    (h2 : k2 < 2 ^ 53) (hnz : k1 ≠ 0 ∨ k2 ≠ 0) :
    validIdFormat (generateSecureId ts k1 k2) = true := by
  obtain ⟨hne, hdig⟩ := natToDec_spec ts
  rw [generateSecureId, validIdFormat,
      takeWhile_append_all Char.isDigit _ _ hdig,
      dropWhile_append_all Char.isDigit _ _ hdig]
  have hu : Char.isDigit '_' = false := by decide
  rw [List.takeWhile_cons, List.dropWhile_cons, hu]
  simp only [Bool.false_eq_true, if_false, List.append_nil]
  have htail : (randomSegment k1 ++ randomSegment k2) ≠ [] := by
    rcases hnz with hk | hk
    · intro hcontra
      exact randomSegment_ne_nil k1 hk h1 (List.append_eq_nil.mp hcontra).1
    · intro hcontra
      exact randomSegment_ne_nil k2 hk h2 (List.append_eq_nil.mp hcontra).2
  have hall : (randomSegment k1 ++ randomSegment k2).all isIdTailChar = true := by
    rw [List.all_eq_true]
    intro c hc
    rcases List.mem_append.mp hc with h | h
    · exact randomSegment_chars k1 c h
    · exact randomSegment_chars k2 c h
  simp [List.isEmpty_iff, hne, htail, hall]

/-- C6 witness: a nonzero first granule gives a well-formed identifier. -/
theorem C6_generated_id_format_witness :
    (1 : Nat) < 2 ^ 53 ∧ (0 : Nat) < 2 ^ 53 ∧
    ((1 : Nat) ≠ 0 ∨ (0 : Nat) ≠ 0) ∧
    validIdFormat (generateSecureId 1700000000123 1 0) = true :=
  ⟨by norm_num, by norm_num, Or.inl (by norm_num),
   C6_generated_id_format 1700000000123 1 0 (by norm_num) (by norm_num)
     (Or.inl (by norm_num))⟩

/-- C10: every input accepted by the pipeline has, after trimming, none of
the six injection punctuation characters, none of the comment-marker
substrings, and no word-bounded case-insensitive occurrence of the ten SQL
keywords; consequently the benign inputs Tom-apostrophe-s list and 1+1 are
rejected, and on every accepted input the sanitizer acts only through its
less-than, greater-than and slash replacements, the ampersand, quote and
apostrophe passes being vacuous. -/
theorem C10_accepted_content_restrictions (rl : RLState) (now : Int)
    (input s : Str)
    (hacc : (validateAndSanitizeInput rl now input).1 = VResult.ok s) :
    (∀ c ∈ jsTrim input,
       c ≠ ';' ∧ c ≠ apos ∧ c ≠ '"' ∧ c ≠ '|' ∧ c ≠ '&' ∧ c ≠ '+') ∧
    hasSub ("--".toList) (jsTrim input) = false ∧
    hasSub ("/*".toList) (jsTrim input) = false ∧
    hasSub ("*/".toList) (jsTrim input) = false ∧
    (∀ kw ∈ sqlKeywords, hasKw kw (lcs (jsTrim input)) = false) ∧
    (validateAndSanitizeInput freshRL 0
        ('T' :: 'o' :: 'm' :: apos :: 's' :: ' ' :: 'l' :: 'i' :: 's' :: 't' :: [])).1 =
      VResult.err ("SUSPICIOUS_CONTENT_DETECTED") ("Potentially unsafe content detected.") ∧
    (validateAndSanitizeInput freshRL 0 ("1+1".toList)).1 =
      VResult.err ("SUSPICIOUS_CONTENT_DETECTED") ("Potentially unsafe content detected.") ∧
    s = replChar '/' ("&#x2F;".toList)
          (replChar '>' ("&gt;".toList)
            (replChar '<' ("&lt;".toList) (jsTrim input))) := by
  have hrl : (isAllowed 10 60000 rl now ("crud_operations")).1 = true := by
    by_contra hneg
    rw [Bool.not_eq_true] at hneg
    simp [validateAndSanitizeInput, hneg] at hacc
  rw [validateAndSanitize_admitted rl now input hrl] at hacc
  cases hvl : validateLength input 500 with
  | false => simp [coreValidate, hvl] at hacc
  | true =>
  cases hv : validateInput input with
  | false => simp [coreValidate, hvl, hv] at hacc
  | true =>
  cases hc : isValidContent input with
  | false => simp [coreValidate, hvl, hv, hc] at hacc
  | true =>
  have hctx : validateForContextText input = true := by
    simp [validateForContextText, hv, hc]
  simp [coreValidate, hvl, hv, hc, hctx] at hacc
  rw [isValidContent, Bool.and_eq_true] at hc
  obtain ⟨hS, hX⟩ := hc
  rw [Bool.not_eq_true'] at hS
  rw [hasSqlPattern, Bool.or_eq_false_iff] at hS
  obtain ⟨hkw, hpunct⟩ := hS
  rw [hasSqlPunct, Bool.or_eq_false_iff, Bool.or_eq_false_iff,
      Bool.or_eq_false_iff] at hpunct
  obtain ⟨⟨⟨hdash, hcs⟩, hce⟩, hany⟩ := hpunct
  have hAny := List.any_eq_false.mp hany
  have punct : ∀ c ∈ jsTrim input,
      c ≠ ';' ∧ c ≠ apos ∧ c ≠ '"' ∧ c ≠ '|' ∧ c ≠ '&' ∧ c ≠ '+' := by
    intro c hc0
    have hm : c.toLower ∈ lcs (jsTrim input) := List.mem_map_of_mem _ hc0
    have hno := hAny _ hm
    refine ⟨?_, ?_, ?_, ?_, ?_, ?_⟩ <;> intro hEq <;> subst hEq <;>
      exact hno (by decide)
  have kws : ∀ kw ∈ sqlKeywords, hasKw kw (lcs (jsTrim input)) = false := by
    intro kw hkwm
    have hn := List.any_eq_false.mp hkw kw hkwm
    cases hkb : hasKw kw (lcs (jsTrim input)) with
    | false => rfl
    | true => exact absurd hkb hn
  have hq : ∀ c ∈ replChar '>' ("&gt;".toList)
      (replChar '<' ("&lt;".toList) (jsTrim input)), c ≠ '"' := by
    intro c hcm
    rcases mem_replChar _ _ _ _ hcm with h | h
    · rcases mem_replChar _ _ _ _ h with h2 | h2
      · exact (punct c h2).2.2.1
      · intro hEq
        subst hEq
        exact absurd h2 (by decide)
    · intro hEq
      subst hEq
      exact absurd h (by decide)
  have ha : ∀ c ∈ replChar '>' ("&gt;".toList)
      (replChar '<' ("&lt;".toList) (jsTrim input)), c ≠ apos := by
    intro c hcm
    rcases mem_replChar _ _ _ _ hcm with h | h
    · rcases mem_replChar _ _ _ _ h with h2 | h2
      · exact (punct c h2).2.1
      · intro hEq
        subst hEq
        exact absurd h2 (by decide)
    · intro hEq
      subst hEq
      exact absurd h (by decide)
  have hsan : sanitizeHtml (jsTrim input) =
      replChar '/' ("&#x2F;".toList)
        (replChar '>' ("&gt;".toList)
          (replChar '<' ("&lt;".toList) (jsTrim input))) := by
    rw [sanitizeHtml,
        replChar_of_not_mem '&' ("&amp;".toList) (jsTrim input)
          (fun c hc0 => (punct c hc0).2.2.2.2.1),
        replChar_of_not_mem '"' ("&quot;".toList) _ hq,
        replChar_of_not_mem apos ("&#x27;".toList) _ ha]
  refine ⟨punct,
    hasSub_of_lcs _ _ (by decide) hdash,
    hasSub_of_lcs _ _ (by decide) hcs,
    hasSub_of_lcs _ _ (by decide) hce,
    kws, by decide, by decide, ?_⟩
  rw [← hacc, hsan]

/-- C10 witness: the accepted input Buy milk instantiates the acceptance
hypothesis and the content restrictions. -/
theorem C10_accepted_content_restrictions_witness :
    (validateAndSanitizeInput freshRL 0 ("Buy milk".toList)).1 =
      VResult.ok ("Buy milk".toList) ∧
    ((∀ c ∈ jsTrim ("Buy milk".toList),
        c ≠ ';' ∧ c ≠ apos ∧ c ≠ '"' ∧ c ≠ '|' ∧ c ≠ '&' ∧ c ≠ '+') ∧
     hasSub ("--".toList) (jsTrim ("Buy milk".toList)) = false ∧
     hasSub ("/*".toList) (jsTrim ("Buy milk".toList)) = false ∧
     hasSub ("*/".toList) (jsTrim ("Buy milk".toList)) = false ∧
     (∀ kw ∈ sqlKeywords, hasKw kw (lcs (jsTrim ("Buy milk".toList))) = false) ∧
     (validateAndSanitizeInput freshRL 0
         ('T' :: 'o' :: 'm' :: apos :: 's' :: ' ' :: 'l' :: 'i' :: 's' :: 't' :: [])).1 =
       VResult.err ("SUSPICIOUS_CONTENT_DETECTED") ("Potentially unsafe content detected.") ∧
     (validateAndSanitizeInput freshRL 0 ("1+1".toList)).1 =
       VResult.err ("SUSPICIOUS_CONTENT_DETECTED") ("Potentially unsafe content detected.") ∧
     ("Buy milk".toList) = replChar '/' ("&#x2F;".toList)
          (replChar '>' ("&gt;".toList)
            (replChar '<' ("&lt;".toList) (jsTrim ("Buy milk".toList))))) :=
  ⟨by decide,
   C10_accepted_content_restrictions freshRL 0 ("Buy milk".toList)
     ("Buy milk".toList) (by decide)⟩
